import Mathlib

/-!
Shallow embedding of the AI image editor repository:
* `src/src/lib/imageUtils.ts` — file validation, base64 conversion, download helpers
* `src/src/lib/aiService.ts` — the remote processing client (`processImage`,
  `extractImageFromResponse`, the per-operation wrappers)
* `src/src/components/ImageUploader.tsx` — the editor session controller
  (`handleImageUpload`, `addToHistory`, `handleProcessImage`, `handleUndo`,
  `handleRedo`, `handleReset`) and the export panel (`generateFileName`,
  `handleDownload`, `convertAndDownload`)

Machine integers do not overflow in any of the modelled code paths, so sizes,
timestamps and HTTP statuses are `Nat` and the history index is `Int`
(the source uses `-1` for "original image, no edits").  Browser primitives
(`URL.createObjectURL`, `FileReader.readAsDataURL`) are modelled as the
deterministic functions documented at their definitions.  Network effects are
modelled by passing the outcome of the single `fetch` call as an explicit
`FetchOutcome` argument.
-/

namespace ImageEditorModel

/-- A browser `File` as the modelled code observes it: `name`, MIME `type`,
`size` in bytes, and its raw byte content. -/
structure JsFile where
  name : String
  type : String
  size : Nat
  bytes : List Nat
deriving DecidableEq, Repr

/-- The standard base64 alphabet, as used by the browser for data URLs. -/
def base64Alphabet : List Char :=
  "ABCDEFGHIJKLMNOPQRSTUVWXYZabcdefghijklmnopqrstuvwxyz0123456789+/".toList

/-- Character of the base64 alphabet at index `n`. -/
def b64Char (n : Nat) : Char := base64Alphabet.getD n 'A'

/-- Standard base64 encoding of a byte list (with `=` padding), as produced
by the browser when it builds a `data:` URL for a file. -/
def base64Encode : List Nat → String
  | [] => ""
  | [a] =>
      String.mk [b64Char (a / 4 % 64), b64Char (a % 4 * 16)] ++ "=="
  | [a, b] =>
      String.mk [b64Char (a / 4 % 64), b64Char (a % 4 * 16 + b / 16 % 16),
        b64Char (b % 16 * 4)] ++ "="
  | a :: b :: c :: rest =>
      String.mk [b64Char (a / 4 % 64), b64Char (a % 4 * 16 + b / 16 % 16),
        b64Char (b % 16 * 4 + c / 64 % 4), b64Char (c % 64)] ++ base64Encode rest

/-- JS `String.prototype.split` with a one-character separator, on character
lists: `"".split(sep)` is `[""]`, and separators at the ends produce empty
segments, exactly as in JS. -/
def splitOnChar (sep : Char) : List Char → List (List Char)
  | [] => [[]]
  | c :: rest =>
      match splitOnChar sep rest with
      | [] => [[c]]
      | h :: t => if c = sep then [] :: h :: t else (c :: h) :: t

/-- JS `s.split(sep)` for a one-character separator, as strings. -/
def jsSplit (s : String) (sep : Char) : List String :=
  (splitOnChar sep s.toList).map String.mk

/-- Join character-list segments with a separator character (used to model
the untouched remainder of a first-occurrence-only JS `replace`). -/
def joinWithChar (sep : Char) : List (List Char) → List Char
  | [] => []
  | [x] => x
  | x :: y :: t => x ++ sep :: joinWithChar sep (y :: t)

/-- JS `String.prototype.trim`: strip whitespace from both ends. -/
def jsTrim (s : String) : String :=
  String.mk
    (((s.toList.dropWhile Char.isWhitespace).reverse.dropWhile
      Char.isWhitespace).reverse)

/-- JS `String.prototype.startsWith`. -/
def jsStartsWith (s pre : String) : Bool :=
  s.toList.take pre.toList.length == pre.toList

/-- Function `fileToBase64` from `imageUtils.ts`: `FileReader.readAsDataURL` yields
`data:<type>;base64,<payload>` and the code takes `result.split(',')[1]`. -/
def fileToBase64 (file : JsFile) : String :=
  let dataUrl := "data:" ++ file.type ++ ";base64," ++ base64Encode file.bytes
  (jsSplit dataUrl ',').getD 1 ""

/-- Result record of `validateImageFile` in `imageUtils.ts`. -/
structure ValidationResult where
  valid : Bool
  error : Option String
deriving DecidableEq, Repr

/-- The `maxSize` constant of `validateImageFile` (10 MB). -/
def maxSize : Nat := 10 * 1024 * 1024

/-- The `allowedTypes` constant of `validateImageFile`. -/
def allowedTypes : List String :=
  ["image/jpeg", "image/jpg", "image/png", "image/webp", "image/gif"]

/-- Function `validateImageFile` from `imageUtils.ts`. -/
def validateImageFile (file : JsFile) : ValidationResult :=
  if ¬ allowedTypes.contains file.type then
    { valid := false,
      error := some "Please upload a valid image file (JPEG, PNG, WebP, or GIF)" }
  else if file.size > maxSize then
    { valid := false, error := some "Image size must be less than 10MB" }
  else
    { valid := true, error := none }

/-- Function `onDrop` from `ImageUploader.tsx`: takes the accepted-file list, validates
the first file and hands it to `onImageUpload` exactly when validation passes
(returning the uploaded file); otherwise the file is rejected with an alert
(returning `none`). -/
def onDrop (acceptedFiles : List JsFile) : Option JsFile :=
  match acceptedFiles with
  | [] => none
  | file :: _ =>
      if (validateImageFile file).valid then some file else none

/-- Optional operation parameters (`style`, `prompt`) from `aiService.ts`.
The `intensity`/`mask` fields are declared but never read by the modelled
code paths, so they are omitted. -/
structure OpParams where
  style : Option String := none
  prompt : Option String := none
deriving DecidableEq, Repr

/-- The closed operation union type of `AIImageEditRequest` in `aiService.ts`. -/
inductive OperationTag where
  | backgroundRemoval
  | styleTransfer
  | enhance
  | objectRemoval
  | artisticFilter
deriving DecidableEq, Repr

/-- Structure `AIImageEditRequest` from `aiService.ts`. -/
structure AIImageEditRequest where
  image : String
  operation : OperationTag
  params : Option OpParams
deriving DecidableEq, Repr

/-- Structure `AIServiceResponse` from `aiService.ts` (the nondeterministic
`processingTime` clock reading is not modelled). -/
structure AIServiceResponse where
  success : Bool
  data : Option String
  error : Option String
deriving DecidableEq, Repr

/-- Field `message.content` of one `choices` element of the remote JSON reply. -/
structure ChatMessage where
  content : String
deriving DecidableEq, Repr

/-- One element of `choices` in the remote JSON reply. -/
structure ChatChoice where
  message : ChatMessage
deriving DecidableEq, Repr

/-- The parsed JSON body of the remote reply. -/
structure ChatResponse where
  choices : List ChatChoice
deriving DecidableEq, Repr

/-- Outcome of the single `fetch` in `processImage`: either the promise
rejects (network failure, carrying the thrown message), or a reply arrives
with an HTTP status, status text, and a body whose JSON parse either fails
(carrying the parse error message) or succeeds. -/
inductive FetchOutcome where
  | networkError (message : String)
  | reply (status : Nat) (statusText : String) (body : Except String ChatResponse)
deriving Repr

/-- Lower-case a string character-wise (the `/i` regex flag). -/
def lowerStr (s : String) : String := String.mk (s.toList.map Char.toLower)

/-- Case-insensitive prefix test on character lists (`pat` given lower-case). -/
def startsWithCI (xs pat : List Char) : Bool :=
  (xs.take pat.length).map Char.toLower == pat

/-- The image-extension alternatives of the extraction regex, in source order. -/
def imageExts : List String := ["jpg", "jpeg", "png", "webp", "gif"]

/-- One attempted match of `/(https?:\/\/[^\s]+\.(?:jpg|jpeg|png|webp|gif))/i`
at the start of `cs`: an optional-`s` scheme prefix, then a greedy run of
non-whitespace characters backtracked to the last position offering `.` plus
one of the extension alternatives (tried in source order). -/
def matchUrlAt (cs : List Char) : Option (List Char) :=
  let schemeLen : Option Nat :=
    if startsWithCI cs "https://".toList then some 8
    else if startsWithCI cs "http://".toList then some 7
    else none
  match schemeLen with
  | none => none
  | some plen =>
      let run := (cs.drop plen).takeWhile (fun c => ¬ c.isWhitespace)
      let dotOk : Nat → Bool := fun j =>
        decide (1 ≤ j) && (run.getD j ' ' == '.') &&
          (imageExts.any (fun e => startsWithCI (run.drop (j + 1)) e.toList))
      match ((List.range run.length).filter dotOk).getLast? with
      | none => none
      | some j =>
          match imageExts.find? (fun e => startsWithCI (run.drop (j + 1)) e.toList) with
          | none => none
          | some ext => some (cs.take (plen + j + 1 + ext.length))

/-- Leftmost match of the URL-extraction regex over the whole content. -/
def findUrlMatch : List Char → Option (List Char)
  | [] => none
  | c :: rest =>
      match matchUrlAt (c :: rest) with
      | some m => some m
      | none => findUrlMatch rest

/-- Model of `content.match(/(https?:\/\/[^\s]+\.(?:jpg|jpeg|png|webp|gif))/i)` of
`extractImageFromResponse`, returning the matched URL when present. -/
def findImageUrl (content : String) : Option String :=
  (findUrlMatch content.toList).map String.mk

/-- Function `extractImageFromResponse` from `aiService.ts`: take the first choice's
message content, return a matched image URL if one is found, and otherwise
fall back to the content itself (`response.choices?.[0]?.message?.content || ''`). -/
def extractImageFromResponse (response : ChatResponse) : String :=
  match response.choices with
  | [] => ""
  | c :: _ =>
      let content := c.message.content
      match findImageUrl content with
      | some url => url
      | none => content

/-- JS `x || d` on an optional string field: the default is used when the
field is absent or the empty string (both falsy). -/
def jsOrDefault (o : Option String) (d : String) : String :=
  match o with
  | none => d
  | some s => if s = "" then d else s

/-- Function `buildPromptForOperation` from `aiService.ts`. -/
def buildPromptForOperation (request : AIImageEditRequest) : String :=
  match request.operation with
  | .backgroundRemoval =>
      "Remove the background from this image, making it transparent while keeping the main subject intact and sharp. Output a high-quality image with clean edges."
  | .styleTransfer =>
      let style := jsOrDefault (request.params.bind OpParams.style) "artistic"
      "Transform this image into " ++ style ++ " style. Apply the artistic transformation while maintaining the core composition and subject matter. Make it visually appealing and high quality."
  | .enhance =>
      "Enhance this image by improving clarity, sharpness, color saturation, and overall quality. Upscale if necessary while maintaining natural appearance and removing any noise or artifacts."
  | .objectRemoval =>
      let objectPrompt := jsOrDefault (request.params.bind OpParams.prompt) "unwanted object"
      "Remove " ++ objectPrompt ++ " from this image and seamlessly fill in the background. Ensure the removal looks natural and the background blends perfectly without any artifacts."
  | .artisticFilter =>
      let filter := jsOrDefault (request.params.bind OpParams.style) "watercolor"
      "Apply a " ++ filter ++ " artistic filter to this image. Transform it into a beautiful artistic representation while preserving the main elements and composition."

/-- Function `processImage` from `aiService.ts`, as a function of the outcome of its
single `fetch`.  A non-ok status (`response.ok` is exactly 200–299) throws
`AI service error: <status> <statusText>`; a JSON parse failure propagates the
parse error; a network failure propagates the fetch rejection; the enclosing
`try`/`catch` converts every throw into `{success := false, error := message}`.
On success the extracted image text is returned with `success := true`. -/
def processImage (request : AIImageEditRequest) (outcome : FetchOutcome) :
    AIServiceResponse :=
  let _prompt := buildPromptForOperation request
  match outcome with
  | .networkError message => { success := false, data := none, error := some message }
  | .reply status statusText body =>
      if status < 200 ∨ 300 ≤ status then
        { success := false, data := none,
          error := some ("AI service error: " ++ toString status ++ " " ++ statusText) }
      else
        match body with
        | .error message => { success := false, data := none, error := some message }
        | .ok r =>
            { success := true, data := some (extractImageFromResponse r), error := none }

/-- The body of `processImage` is straight-line: it contains exactly one
`await fetch` and no loop, so one invocation consumes exactly one outcome of
the fetch oracle and performs exactly one fetch (the returned count). -/
def processImageFetches (request : AIImageEditRequest)
    (fetchOracle : Nat → FetchOutcome) : AIServiceResponse × Nat :=
  (processImage request (fetchOracle 0), 1)

/-- Structure `EditHistory` from `ImageUploader.tsx`. -/
structure EditHistory where
  imageUrl : String
  operation : String
  timestamp : Nat
deriving DecidableEq, Repr

instance : Inhabited EditHistory := ⟨⟨"", "", 0⟩⟩

/-- React state of the `ImageEditor` component in `ImageUploader.tsx`
(`currentFile`, `currentImageUrl`, `originalImageUrl`, `isProcessing`,
`editHistory`, `currentHistoryIndex`, `processingStatus`). -/
@[ext] structure EditorState where
  currentFile : Option JsFile
  currentImageUrl : String
  originalImageUrl : String
  isProcessing : Bool
  editHistory : List EditHistory
  currentHistoryIndex : Int
  processingStatus : String
deriving DecidableEq, Repr

instance : Inhabited EditorState := ⟨⟨none, "", "", false, [], -1, ""⟩⟩

/-- Model of `URL.createObjectURL`, an opaque browser primitive producing a non-empty
`blob:` URL for a file; modelled as a deterministic tag of the file name. -/
def objectURL (file : JsFile) : String := "blob:" ++ file.name

/-- Function `handleImageUpload` from `ImageUploader.tsx`: stores the file, points both
the current and the original image URL at its object URL, and clears the
history (entries `[]`, index `-1`). -/
def handleImageUpload (s : EditorState) (file : JsFile) : EditorState :=
  { s with
    currentFile := some file
    currentImageUrl := objectURL file
    originalImageUrl := objectURL file
    editHistory := []
    currentHistoryIndex := -1 }

/-- Function `addToHistory` from `ImageUploader.tsx`: `editHistory.slice(0,
currentHistoryIndex + 1)` (the index is always ≥ -1, so the slice is a
`take`), push the new entry, adopt the new list and point the index at its
last element.  `Date.now()` is passed in as `now`. -/
def addToHistory (s : EditorState) (imageUrl operation : String) (now : Nat) :
    EditorState :=
  let newEntry : EditHistory := ⟨imageUrl, operation, now⟩
  let newHistory := s.editHistory.take (s.currentHistoryIndex + 1).toNat ++ [newEntry]
  { s with
    editHistory := newHistory
    currentHistoryIndex := (newHistory.length : Int) - 1 }

/-- JS `s.replace('-', ' ')` replaces only the first occurrence. -/
def replaceFirstDash (s : String) : String :=
  match splitOnChar '-' s.toList with
  | [] => s
  | [x] => String.mk x
  | x :: rest => String.mk (x ++ ' ' :: joinWithChar '-' rest)

/-- JS truthiness of `result.data`: present and non-empty. -/
def truthyData : Option String → Bool
  | none => false
  | some d => d != ""

/-- The request built by the `switch (operation)` of `handleProcessImage`
combined with the service wrapper it calls (`removeBackground`,
`applyStyleTransfer`, `enhanceImage`, `removeObject`, `applyArtisticFilter`);
any other operation string falls through to a generic `enhance` request
passing the raw parameters. -/
def requestFor (operation : String) (parameters : Option OpParams)
    (base64Image : String) : AIImageEditRequest :=
  if operation = "background-removal" then
    ⟨base64Image, .backgroundRemoval, none⟩
  else if operation = "style-transfer" then
    ⟨base64Image, .styleTransfer,
      some { style := some (jsOrDefault (parameters.bind OpParams.style) "artistic") }⟩
  else if operation = "enhance" then
    ⟨base64Image, .enhance, none⟩
  else if operation = "object-removal" then
    ⟨base64Image, .objectRemoval,
      some { prompt := some (jsOrDefault (parameters.bind OpParams.prompt) "") }⟩
  else if operation = "artistic-filter" then
    ⟨base64Image, .artisticFilter,
      some { style := some (jsOrDefault (parameters.bind OpParams.style) "watercolor") }⟩
  else
    ⟨base64Image, .enhance, parameters⟩

/-- Function `handleProcessImage` from `ImageUploader.tsx`.  Guard: without a current
file and a current image URL it alerts and returns (emitting no request).
Otherwise it converts `currentFile` to base64, builds the request for the
operation, runs the remote call (whose fetch outcome is the `outcome`
argument), and on a truthy successful result adopts the new image URL
(`http...` used directly, otherwise wrapped as a PNG data URL) and appends a
history entry; on failure it alerts and leaves image, history and index
unchanged.  `isProcessing` is cleared by the `finally`; the transient
3-second status timeout is not modelled beyond the message it clears.
Returns the new state and, when a remote call was made, the request/response
pair handed back across the service boundary. -/
def handleProcessImage (s : EditorState) (operation : String)
    (parameters : Option OpParams) (now : Nat) (outcome : FetchOutcome) :
    EditorState × Option (AIImageEditRequest × AIServiceResponse) :=
  match s.currentFile with
  | none => (s, none)
  | some file =>
      if s.currentImageUrl = "" then (s, none)
      else
        let s1 := { s with
          isProcessing := true
          processingStatus := "Processing " ++ replaceFirstDash operation ++ "..." }
        let base64Image := fileToBase64 file
        let req := requestFor operation parameters base64Image
        let result := processImage req outcome
        if result.success && truthyData result.data then
          let d := result.data.getD ""
          let newImageUrl :=
            if jsStartsWith d "http" then d else "data:image/png;base64," ++ d
          let s2 := addToHistory { s1 with currentImageUrl := newImageUrl }
            newImageUrl operation now
          ({ s2 with
              isProcessing := false
              processingStatus :=
                "✅ " ++ replaceFirstDash operation ++ " completed successfully!" },
            some (req, result))
        else
          ({ s1 with
              isProcessing := false
              processingStatus := "❌ Processing failed" },
            some (req, result))

/-- Function `handleUndo` from `ImageUploader.tsx`: at index > 0 step back one entry
and show its image; at index 0 step back to the original image (index -1);
otherwise do nothing. -/
def handleUndo (s : EditorState) : EditorState :=
  if s.currentHistoryIndex > 0 then
    { s with
      currentHistoryIndex := s.currentHistoryIndex - 1
      currentImageUrl :=
        (s.editHistory.getD (s.currentHistoryIndex - 1).toNat default).imageUrl }
  else if s.currentHistoryIndex = 0 then
    { s with currentHistoryIndex := -1, currentImageUrl := s.originalImageUrl }
  else s

/-- Function `handleRedo` from `ImageUploader.tsx`: while a later entry exists, step
forward one entry and show its image; otherwise do nothing. -/
def handleRedo (s : EditorState) : EditorState :=
  if s.currentHistoryIndex < (s.editHistory.length : Int) - 1 then
    { s with
      currentHistoryIndex := s.currentHistoryIndex + 1
      currentImageUrl :=
        (s.editHistory.getD (s.currentHistoryIndex + 1).toNat default).imageUrl }
  else s

/-- Function `handleReset` from `ImageUploader.tsx`: back to the original image,
index -1, empty history. -/
def handleReset (s : EditorState) : EditorState :=
  { s with
    currentImageUrl := s.originalImageUrl
    currentHistoryIndex := -1
    editHistory := [] }

/-- Function `canUndo` from `ImageUploader.tsx`. -/
def canUndo (s : EditorState) : Bool := decide (s.currentHistoryIndex ≥ 0)

/-- Function `canRedo` from `ImageUploader.tsx`. -/
def canRedo (s : EditorState) : Bool :=
  decide (s.currentHistoryIndex < (s.editHistory.length : Int) - 1)

/-- One user action on a loaded session: an AI operation (with the outcome of
its remote fetch), undo, redo, or reset. -/
inductive Ev where
  | process (op : String) (params : Option OpParams) (now : Nat) (outcome : FetchOutcome)
  | undo
  | redo
  | reset

/-- Run one event against the editor state, also returning the request sent
to the remote service when the event made a remote call. -/
def stepEv (s : EditorState) : Ev → EditorState × Option AIImageEditRequest
  | .process op params now outcome =>
      let r := handleProcessImage s op params now outcome
      (r.1, r.2.map Prod.fst)
  | .undo => (handleUndo s, none)
  | .redo => (handleRedo s, none)
  | .reset => (handleReset s, none)

/-- Run a list of events, collecting every request sent to the remote
service along the way. -/
def runCollect : EditorState → List Ev → EditorState × List AIImageEditRequest
  | s, [] => (s, [])
  | s, e :: es =>
      let r := stepEv s e
      let rest := runCollect r.1 es
      (rest.1, r.2.toList ++ rest.2)

/-- A session state reachable from some upload followed by any sequence of
loaded-session events. -/
def Reachable (s : EditorState) : Prop :=
  ∃ s0 file es, s = (runCollect (handleImageUpload s0 file) es).1

/-- The session invariant: either the index is -1 and the current image is
the original, or the index addresses a history entry whose image is current. -/
def Inv (s : EditorState) : Prop :=
  (s.currentHistoryIndex = -1 ∧ s.currentImageUrl = s.originalImageUrl) ∨
  (0 ≤ s.currentHistoryIndex ∧ s.currentHistoryIndex < (s.editHistory.length : Int) ∧
    s.currentImageUrl =
      (s.editHistory.getD s.currentHistoryIndex.toNat default).imageUrl)

/-- The regex `\.[^/.]+$` of `generateFileName`: strip a final dot-extension
(a last `.` followed by at least one character, none of which is `/` or `.`);
otherwise return the name unchanged. -/
def stripExtension (name : String) : String :=
  let cs := name.toList
  match (cs.reverse.findIdx? (· = '.')) with
  | none => name
  | some k =>
      let i := cs.length - 1 - k
      let suffix := cs.drop (i + 1)
      if suffix ≠ [] ∧ suffix.all (fun c => c != '/' && c != '.') then
        String.mk (cs.take i)
      else name

/-- Function `generateFileName` from the export panel: a non-empty trimmed custom name
is returned trimmed; otherwise `<base>-edited-<timestamp>` where the base is
the original upload's name with its extension stripped (`edited-image` when no
upload name is known) and the timestamp is `new Date().toISOString()`
(passed in as `nowIso`) cut to its first 19 characters with `:` replaced by
`-`. -/
def generateFileName (customName : String) (originalImageName : Option String)
    (nowIso : String) : String :=
  if jsTrim customName ≠ "" then jsTrim customName
  else
    let baseName :=
      match originalImageName with
      | some n => stripExtension n
      | none => "edited-image"
    let timestamp := ((nowIso.toList.take 19).map (fun c => if c = ':' then '-' else c))
    baseName ++ "-edited-" ++ String.mk timestamp

/-- Observable effect of an export: either the stored base64 payload is
downloaded directly under the saved name (the `downloadImage` path, no
re-encoding), or the image is redrawn on a canvas and re-encoded with the
given MIME type and encoder quality, flattened onto a white background first
when the white flag is set (the `convertAndDownload` path). -/
inductive ExportAction where
  | directDownload (base64Data : String) (savedName : String)
  | reencode (source : String) (savedName : String) (mime : String)
      (whiteBackground : Bool) (encoderQuality : Rat)
deriving DecidableEq, Repr

/-- Function `downloadImage` from `imageUtils.ts`: turns the base64 payload into a
blob and saves it as `<filename>.<format>` without re-encoding. -/
def downloadImage (base64 filename format : String) : ExportAction :=
  .directDownload base64 (filename ++ "." ++ format)

/-- Function `convertAndDownload` from the export panel: redraw the image on a canvas
(filling it white first exactly when the format is `jpg`), then encode via
`canvas.toBlob(..., image/<format>, qualityValue / 100)` and save as
`<fileName>.<format>`. -/
def convertAndDownload (imageData fileName format : String) (qualityValue : Nat) :
    ExportAction :=
  .reencode imageData (fileName ++ "." ++ format) ("image/" ++ format)
    (format == "jpg") ((qualityValue : Rat) / 100)

/-- Function `handleDownload` from the export panel: nothing happens without image
data; for `png` the payload after the first comma of the data URL (or the
whole string when there is no comma) is downloaded directly; for every other
format the image is re-encoded with the selected quality. -/
def handleDownload (imageData : String) (customName : String)
    (originalImageName : Option String) (nowIso : String)
    (exportFormat : String) (quality : Nat) : Option ExportAction :=
  if imageData = "" then none
  else
    let fileName := generateFileName customName originalImageName nowIso
    if exportFormat = "png" then
      let base64Data :=
        if imageData.toList.contains ',' then (jsSplit imageData ',').getD 1 ""
        else imageData
      some (downloadImage base64Data fileName "png")
    else
      some (convertAndDownload imageData fileName exportFormat quality)

/-- The saved file name (including extension) of an export action. -/
def savedName : ExportAction → String
  | .directDownload _ n => n
  | .reencode _ n _ _ _ => n

/-- Concrete upload fixture: a small JPEG file. -/
def wFile : JsFile := ⟨"photo.jpg", "image/jpeg", 3, [1, 2, 3]⟩

/-- Concrete remote reply body whose content is a bare base64 payload. -/
def wChat : ChatResponse := ⟨[⟨⟨"AAAA"⟩⟩]⟩

/-- A second concrete remote reply body. -/
def wChat2 : ChatResponse := ⟨[⟨⟨"BBBB"⟩⟩]⟩

/-- The session state immediately after uploading `wFile`. -/
def wState : EditorState := handleImageUpload default wFile

/-- Two consecutive successful AI operations. -/
def wEvents : List Ev :=
  [.process "enhance" none 7 (.reply 200 "OK" (.ok wChat)),
   .process "style-transfer" (some ⟨some "anime", none⟩) 8
     (.reply 200 "OK" (.ok wChat2))]

/-- The new image URL the success path of `handleProcessImage` adopts for an
extracted payload: a URL starting with `http` is used directly, anything else
is wrapped as a PNG data URL. -/
def successUrl (cr : ChatResponse) : String :=
  if jsStartsWith (extractImageFromResponse cr) "http" then
    extractImageFromResponse cr
  else "data:image/png;base64," ++ extractImageFromResponse cr

/-! ### Helper lemmas -/

lemma getD_take_of_lt {α : Type} (l : List α) (n i : Nat) (d : α) (h : i < n) :
    (l.take n).getD i d = l.getD i d := by
  rw [List.getD_eq_getElem?_getD, List.getD_eq_getElem?_getD, List.getElem?_take,
    if_pos h]

lemma getD_concat_len {α : Type} (l : List α) (e d : α) :
    (l ++ [e]).getD l.length d = e := by
  rw [List.getD_append_right] <;> simp

lemma processImage_networkError (req : AIImageEditRequest) (msg : String) :
    processImage req (.networkError msg) =
      ⟨false, none, some msg⟩ := rfl

lemma processImage_badStatus (req : AIImageEditRequest) (st : Nat) (stx : String)
    (body : Except String ChatResponse) (h : st < 200 ∨ 300 ≤ st) :
    processImage req (.reply st stx body) =
      ⟨false, none, some ("AI service error: " ++ toString st ++ " " ++ stx)⟩ := by
  simp [processImage, h]

lemma processImage_parseError (req : AIImageEditRequest) (st : Nat) (stx msg : String)
    (h2 : 200 ≤ st) (h3 : st < 300) :
    processImage req (.reply st stx (.error msg)) = ⟨false, none, some msg⟩ := by
  simp [processImage, show ¬ (st < 200 ∨ 300 ≤ st) by omega]

lemma processImage_ok (req : AIImageEditRequest) (st : Nat) (stx : String)
    (cr : ChatResponse) (h2 : 200 ≤ st) (h3 : st < 300) :
    processImage req (.reply st stx (.ok cr)) =
      ⟨true, some (extractImageFromResponse cr), none⟩ := by
  simp [processImage, show ¬ (st < 200 ∨ 300 ≤ st) by omega]

lemma requestFor_image (operation : String) (parameters : Option OpParams)
    (b : String) : (requestFor operation parameters b).image = b := by
  unfold requestFor
  split_ifs <;> rfl

lemma handleProcessImage_failure (s : EditorState) (file : JsFile) (op : String)
    (params : Option OpParams) (now : Nat) (outcome : FetchOutcome)
    (hf : s.currentFile = some file) (hu : s.currentImageUrl ≠ "")
    (hfail : ((processImage (requestFor op params (fileToBase64 file)) outcome).success &&
      truthyData (processImage (requestFor op params (fileToBase64 file)) outcome).data)
      = false) :
    handleProcessImage s op params now outcome =
      ({ s with isProcessing := false, processingStatus := "❌ Processing failed" },
        some (requestFor op params (fileToBase64 file),
          processImage (requestFor op params (fileToBase64 file)) outcome)) := by
  cases s with
  | mk cf cu ou ip eh ci ps =>
      simp only [EditorState.currentFile] at hf
      subst hf
      simp only [handleProcessImage, EditorState.currentImageUrl] at hu ⊢
      rw [if_neg hu]
      simp [hfail]

lemma handleProcessImage_success (s : EditorState) (file : JsFile) (op : String)
    (params : Option OpParams) (now st : Nat) (stx : String) (cr : ChatResponse)
    (hf : s.currentFile = some file) (hu : s.currentImageUrl ≠ "")
    (h2 : 200 ≤ st) (h3 : st < 300)
    (hne : extractImageFromResponse cr ≠ "") :
    handleProcessImage s op params now (.reply st stx (.ok cr)) =
      (let u := if jsStartsWith (extractImageFromResponse cr) "http"
          then extractImageFromResponse cr
          else "data:image/png;base64," ++ extractImageFromResponse cr
        let nh := s.editHistory.take (s.currentHistoryIndex + 1).toNat ++ [⟨u, op, now⟩]
        ({ s with
            currentImageUrl := u
            editHistory := nh
            currentHistoryIndex := (nh.length : Int) - 1
            isProcessing := false
            processingStatus :=
              "✅ " ++ replaceFirstDash op ++ " completed successfully!" },
          some (requestFor op params (fileToBase64 file),
            ⟨true, some (extractImageFromResponse cr), none⟩))) := by
  cases s with
  | mk cf cu ou ip eh ci ps =>
      simp only [EditorState.currentFile] at hf
      subst hf
      simp only [handleProcessImage, EditorState.currentImageUrl] at hu ⊢
      rw [if_neg hu, processImage_ok _ _ _ _ h2 h3]
      simp [truthyData, hne, addToHistory]

lemma inv_upload (s : EditorState) (file : JsFile) :
    Inv (handleImageUpload s file) := by
  left
  exact ⟨rfl, rfl⟩

lemma undo_originalImageUrl (s : EditorState) :
    (handleUndo s).originalImageUrl = s.originalImageUrl := by
  unfold handleUndo
  split_ifs <;> rfl

lemma undo_editHistory (s : EditorState) :
    (handleUndo s).editHistory = s.editHistory := by
  unfold handleUndo
  split_ifs <;> rfl

lemma undo_noop_of_neg (s : EditorState) (h : s.currentHistoryIndex < 0) :
    handleUndo s = s := by
  unfold handleUndo
  rw [if_neg (by omega), if_neg (by omega)]

lemma undo_index (s : EditorState) (h : 0 ≤ s.currentHistoryIndex) :
    (handleUndo s).currentHistoryIndex = s.currentHistoryIndex - 1 := by
  unfold handleUndo
  split_ifs with h1 h2
  · rfl
  · simp [h2]
  · omega

lemma inv_undo (s : EditorState) (h : Inv s) : Inv (handleUndo s) := by
  obtain ⟨cf, cu, ou, ip, eh, ci, ps⟩ := s
  unfold handleUndo
  unfold Inv at h ⊢
  dsimp only at h ⊢
  split_ifs with h1 h2
  · rcases h with ⟨hi, _⟩ | ⟨hge, hlt, hurl⟩
    · exact absurd h1 (by omega)
    · right
      dsimp only
      exact ⟨by omega, by omega, rfl⟩
  · left
    exact ⟨rfl, rfl⟩
  · exact h

lemma inv_redo (s : EditorState) (h : Inv s) : Inv (handleRedo s) := by
  obtain ⟨cf, cu, ou, ip, eh, ci, ps⟩ := s
  unfold handleRedo
  unfold Inv at h ⊢
  dsimp only at h ⊢
  split_ifs with h1
  · have hge : -1 ≤ ci := by
      rcases h with ⟨hi, _⟩ | ⟨hge, _, _⟩ <;> omega
    right
    dsimp only
    exact ⟨by omega, by omega, rfl⟩
  · exact h

lemma inv_reset (s : EditorState) : Inv (handleReset s) := by
  left
  exact ⟨rfl, rfl⟩

lemma inv_success_record (s : EditorState) (u op' ps' : String) (now : Nat) :
    Inv { s with
      currentImageUrl := u
      editHistory :=
        s.editHistory.take (s.currentHistoryIndex + 1).toNat ++ [⟨u, op', now⟩]
      currentHistoryIndex :=
        ((s.editHistory.take (s.currentHistoryIndex + 1).toNat ++
          [(⟨u, op', now⟩ : EditHistory)]).length : Int) - 1
      isProcessing := false
      processingStatus := ps' } := by
  right
  set t := s.editHistory.take (s.currentHistoryIndex + 1).toNat with ht
  have hlen : (t ++ [(⟨u, op', now⟩ : EditHistory)]).length = t.length + 1 := by
    simp
  refine ⟨?_, ?_, ?_⟩
  · dsimp only
    rw [hlen]
    omega
  · dsimp only
    rw [hlen]
    omega
  · dsimp only
    rw [hlen, show (((t.length + 1 : Nat) : Int) - 1).toNat = t.length by omega,
      getD_concat_len]

lemma bool_and_false_of_not {a b : Bool} (h : ¬ (a && b) = true) : (a && b) = false := by
  simpa using h

lemma inv_process (s : EditorState) (op : String) (params : Option OpParams)
    (now : Nat) (outcome : FetchOutcome) (h : Inv s) :
    Inv ((handleProcessImage s op params now outcome).1) := by
  cases hcf : s.currentFile with
  | none =>
      unfold handleProcessImage
      rw [hcf]
      exact h
  | some file =>
      by_cases hu : s.currentImageUrl = ""
      · unfold handleProcessImage
        rw [hcf]
        dsimp only
        rw [if_pos hu]
        exact h
      · by_cases hres :
            ((processImage (requestFor op params (fileToBase64 file)) outcome).success &&
              truthyData
                (processImage (requestFor op params (fileToBase64 file)) outcome).data)
              = true
        · rcases outcome with msg | ⟨st, stx, body⟩
          · rw [processImage_networkError] at hres
            simp [truthyData] at hres
          · by_cases hst : st < 200 ∨ 300 ≤ st
            · rw [processImage_badStatus _ _ _ _ hst] at hres
              simp [truthyData] at hres
            · push_neg at hst
              obtain ⟨h2, h3⟩ := hst
              rcases body with msg | cr
              · rw [processImage_parseError _ _ _ _ (by omega) (by omega)] at hres
                simp [truthyData] at hres
              · have hne : extractImageFromResponse cr ≠ "" := by
                  rw [processImage_ok _ _ _ _ (by omega) (by omega)] at hres
                  simpa [truthyData] using hres
                rw [show ((handleProcessImage s op params now
                      (.reply st stx (.ok cr))).1) =
                    (handleProcessImage s op params now (.reply st stx (.ok cr))).1
                  from rfl]
                rw [handleProcessImage_success s file op params now st stx cr hcf hu
                  (by omega) (by omega) hne]
                exact inv_success_record s _ op _ now
        · rw [handleProcessImage_failure s file op params now outcome hcf hu
            (bool_and_false_of_not hres)]
          exact h

lemma inv_step (s : EditorState) (e : Ev) (h : Inv s) : Inv ((stepEv s e).1) := by
  cases e with
  | process op params now outcome => exact inv_process s op params now outcome h
  | undo => exact inv_undo s h
  | redo => exact inv_redo s h
  | reset => exact inv_reset s

lemma inv_run : ∀ (es : List Ev) (s : EditorState), Inv s → Inv ((runCollect s es).1)
  | [], _, h => h
  | e :: es, s, h => inv_run es ((stepEv s e).1) (inv_step s e h)

lemma reachable_inv (s : EditorState) (h : Reachable s) : Inv s := by
  obtain ⟨s0, file, es, rfl⟩ := h
  exact inv_run es (handleImageUpload s0 file) (inv_upload s0 file)

lemma handleProcessImage_currentFile (s : EditorState) (op : String)
    (params : Option OpParams) (now : Nat) (outcome : FetchOutcome) :
    ((handleProcessImage s op params now outcome).1).currentFile = s.currentFile := by
  unfold handleProcessImage
  cases hcf : s.currentFile with
  | none => exact hcf
  | some file =>
      dsimp only
      split_ifs <;> simp [addToHistory, hcf]

lemma stepEv_currentFile (s : EditorState) (e : Ev) :
    ((stepEv s e).1).currentFile = s.currentFile := by
  cases e with
  | process op params now outcome => exact handleProcessImage_currentFile s op params now outcome
  | undo =>
      show (handleUndo s).currentFile = s.currentFile
      unfold handleUndo
      split_ifs <;> rfl
  | redo =>
      show (handleRedo s).currentFile = s.currentFile
      unfold handleRedo
      split_ifs <;> rfl
  | reset => rfl

lemma handleProcessImage_emitted (s : EditorState) (file : JsFile) (op : String)
    (params : Option OpParams) (now : Nat) (outcome : FetchOutcome)
    (pr : AIImageEditRequest × AIServiceResponse)
    (hf : s.currentFile = some file)
    (hp : (handleProcessImage s op params now outcome).2 = some pr) :
    pr.1.image = fileToBase64 file := by
  unfold handleProcessImage at hp
  rw [hf] at hp
  dsimp only at hp
  by_cases h1 : s.currentImageUrl = ""
  · rw [if_pos h1] at hp
    exact absurd hp (by simp)
  · rw [if_neg h1] at hp
    split_ifs at hp
    all_goals
      dsimp only at hp
      rw [Option.some_inj] at hp
      rw [← hp]
      exact requestFor_image op params (fileToBase64 file)

lemma stepEv_emitted (s : EditorState) (file : JsFile) (e : Ev)
    (req : AIImageEditRequest)
    (hf : s.currentFile = some file)
    (hp : (stepEv s e).2 = some req) :
    req.image = fileToBase64 file := by
  cases e with
  | process op params now outcome =>
      unfold stepEv at hp
      dsimp only at hp
      cases hpr : (handleProcessImage s op params now outcome).2 with
      | none => rw [hpr] at hp; simp at hp
      | some pr =>
          rw [hpr] at hp
          rw [show Option.map Prod.fst (some pr) = some pr.1 from rfl,
            Option.some_inj] at hp
          rw [← hp]
          exact handleProcessImage_emitted s file op params now outcome pr hf hpr
  | undo => exact absurd hp (by simp [stepEv])
  | redo => exact absurd hp (by simp [stepEv])
  | reset => exact absurd hp (by simp [stepEv])

lemma runCollect_image (file : JsFile) :
    ∀ (es : List Ev) (s : EditorState), s.currentFile = some file →
      ∀ req ∈ (runCollect s es).2, req.image = fileToBase64 file := by
  intro es
  induction es with
  | nil => intro s _ req hmem; simp [runCollect] at hmem
  | cons e es ih =>
      intro s hs req hmem
      unfold runCollect at hmem
      dsimp only at hmem
      rw [List.mem_append] at hmem
      rcases hmem with hmem | hmem
      · rcases hopt : (stepEv s e).2 with _ | r
        · rw [hopt] at hmem; simp at hmem
        · rw [hopt] at hmem
          simp only [Option.toList_some, List.mem_singleton] at hmem
          subst hmem
          exact stepEv_emitted s file e req hs hopt
      · exact ih ((stepEv s e).1) (by rw [stepEv_currentFile]; exact hs) req hmem

lemma undo_iterate_reaches :
    ∀ (k : Nat) (s : EditorState), Inv s → (s.currentHistoryIndex + 1).toNat = k →
      (handleUndo^[k] s).currentHistoryIndex = -1 ∧
      (handleUndo^[k] s).currentImageUrl = s.originalImageUrl ∧
      (handleUndo^[k] s).originalImageUrl = s.originalImageUrl := by
  intro k
  induction k with
  | zero =>
      intro s h hk
      simp only [Function.iterate_zero, id]
      rcases h with ⟨hi, hurl⟩ | ⟨hge, _, _⟩
      · exact ⟨hi, hurl, by trivial⟩
      · exact absurd hk (by omega)
  | succ k ih =>
      intro s h hk
      have hge : 0 ≤ s.currentHistoryIndex := by omega
      rw [Function.iterate_succ_apply]
      have h' := inv_undo s h
      have hidx := undo_index s hge
      have horig := undo_originalImageUrl s
      have := ih (handleUndo s) h' (by omega)
      rw [horig] at this
      exact this

lemma validateImageFile_valid_iff (f : JsFile) :
    (validateImageFile f).valid = true ↔
      (f.type ∈ ["image/jpeg", "image/jpg", "image/png", "image/webp", "image/gif"] ∧
        f.size ≤ 10 * 1024 * 1024) := by
  unfold validateImageFile
  split_ifs with h1 h2
  · rw [false_iff]
    rintro ⟨-, hs⟩
    unfold maxSize at h2
    omega
  · constructor
    · intro _
      refine ⟨List.elem_iff.mp h1, ?_⟩
      unfold maxSize at h2
      omega
    · intro _
      rfl
  · rw [false_iff]
    rintro ⟨hm, -⟩
    exact h1 (List.elem_iff.mpr hm)

lemma validateImageFile_error_msg (f : JsFile) (h : (validateImageFile f).valid = false) :
    ∃ msg, (validateImageFile f).error = some msg ∧ msg ≠ "" := by
  unfold validateImageFile at h ⊢
  split_ifs at h ⊢ with h1 h2
  · exact ⟨_, rfl, by decide⟩
  · exact ⟨_, rfl, by decide⟩

/-! ### Claim theorems -/

/-- Claim C1: when the remote call behind `applyOperation` fails with any
non-2xx HTTP status (for example 500), `handleProcessImage` hands a failure
result (`success = false`, error message present) back as a value — no
exception — appends no `HistoryEntry`, and leaves `currentImageUrl`, the
history list and the history index unchanged. -/
theorem applyOperation_remote_failure_leaves_state_unchanged
    (s : EditorState) (file : JsFile) (op : String) (params : Option OpParams)
    (now st : Nat) (stx : String) (body : Except String ChatResponse)
    (hf : s.currentFile = some file) (hu : s.currentImageUrl ≠ "")
    (hst : st < 200 ∨ 300 ≤ st) :
    ∃ req res,
      (handleProcessImage s op params now (.reply st stx body)).2 = some (req, res) ∧
      res.success = false ∧ res.error.isSome = true ∧
      (handleProcessImage s op params now (.reply st stx body)).1.currentImageUrl
        = s.currentImageUrl ∧
      (handleProcessImage s op params now (.reply st stx body)).1.editHistory
        = s.editHistory ∧
      (handleProcessImage s op params now (.reply st stx body)).1.currentHistoryIndex
        = s.currentHistoryIndex := by
  have hres := processImage_badStatus (requestFor op params (fileToBase64 file))
    st stx body hst
  have hfail : ((processImage (requestFor op params (fileToBase64 file))
        (.reply st stx body)).success &&
      truthyData (processImage (requestFor op params (fileToBase64 file))
        (.reply st stx body)).data) = false := by
    rw [hres]
    rfl
  rw [handleProcessImage_failure s file op params now _ hf hu hfail]
  refine ⟨_, _, rfl, ?_, ?_, rfl, rfl, rfl⟩
  · rw [hres]
  · rw [hres]
    rfl

/-- Witness for C1 at HTTP status 500 on a freshly uploaded file. -/
theorem applyOperation_remote_failure_witness :
    ∃ req res,
      (handleProcessImage wState "enhance" none 7
        (.reply 500 "Internal Server Error" (.ok wChat))).2 = some (req, res) ∧
      res.success = false ∧ res.error.isSome = true ∧
      (handleProcessImage wState "enhance" none 7
        (.reply 500 "Internal Server Error" (.ok wChat))).1.currentImageUrl
        = wState.currentImageUrl ∧
      (handleProcessImage wState "enhance" none 7
        (.reply 500 "Internal Server Error" (.ok wChat))).1.editHistory
        = wState.editHistory ∧
      (handleProcessImage wState "enhance" none 7
        (.reply 500 "Internal Server Error" (.ok wChat))).1.currentHistoryIndex
        = wState.currentHistoryIndex :=
  applyOperation_remote_failure_leaves_state_unchanged wState wFile "enhance" none
    7 500 "Internal Server Error" (.ok wChat) rfl (by decide) (by decide)

/-- Claim C3: each failure mode of the remote client's `processImage` —
network failure, non-2xx HTTP status, response-parsing failure — yields a
returned value with `success := false` and an error message, and exactly one
fetch is performed (no retry). -/
theorem processImage_failure_modes (req : AIImageEditRequest)
    (fetchOracle : Nat → FetchOutcome) :
    (∀ msg, fetchOracle 0 = .networkError msg →
      processImageFetches req fetchOracle = (⟨false, none, some msg⟩, 1)) ∧
    (∀ st stx body, fetchOracle 0 = .reply st stx body → st < 200 ∨ 300 ≤ st →
      processImageFetches req fetchOracle =
        (⟨false, none, some ("AI service error: " ++ toString st ++ " " ++ stx)⟩, 1)) ∧
    (∀ st stx msg, fetchOracle 0 = .reply st stx (.error msg) →
      200 ≤ st → st < 300 →
      processImageFetches req fetchOracle = (⟨false, none, some msg⟩, 1)) := by
  refine ⟨?_, ?_, ?_⟩
  · intro msg h
    unfold processImageFetches
    rw [h, processImage_networkError]
  · intro st stx body h hst
    unfold processImageFetches
    rw [h, processImage_badStatus _ _ _ _ hst]
  · intro st stx msg h h2 h3
    unfold processImageFetches
    rw [h, processImage_parseError _ _ _ _ h2 h3]

/-- Witness for C3: the three failure modes at concrete inputs. -/
theorem processImage_failure_modes_witness :
    processImageFetches ⟨"AQID", .enhance, none⟩
        (fun _ => .networkError "Failed to fetch") =
      (⟨false, none, some "Failed to fetch"⟩, 1) ∧
    processImageFetches ⟨"AQID", .enhance, none⟩
        (fun _ => .reply 500 "Internal Server Error" (.ok wChat)) =
      (⟨false, none,
        some ("AI service error: " ++ toString 500 ++ " " ++ "Internal Server Error")⟩, 1) ∧
    processImageFetches ⟨"AQID", .enhance, none⟩
        (fun _ => .reply 200 "OK" (.error "Unexpected token < in JSON")) =
      (⟨false, none, some "Unexpected token < in JSON"⟩, 1) :=
  ⟨(processImage_failure_modes ⟨"AQID", .enhance, none⟩ _).1 _ rfl,
   (processImage_failure_modes ⟨"AQID", .enhance, none⟩ _).2.1 500
     "Internal Server Error" _ rfl (by decide),
   (processImage_failure_modes ⟨"AQID", .enhance, none⟩ _).2.2 200 "OK" _ rfl
     (by decide) (by decide)⟩

/-- Claim C4: `addToHistory` first truncates all entries strictly after the
current index (discarding the redo future), then appends the new entry, and
sets the current index to the position of the new last entry; hence after an
append nothing remains redoable (`canRedo` is false), so a new operation
after `undo()` discards all previously-redoable entries. -/
theorem addToHistory_truncates_appends_points_at_last
    (s : EditorState) (u op : String) (t : Nat) :
    (addToHistory s u op t).editHistory =
      s.editHistory.take (s.currentHistoryIndex + 1).toNat ++ [⟨u, op, t⟩] ∧
    (addToHistory s u op t).currentHistoryIndex =
      ((addToHistory s u op t).editHistory.length : Int) - 1 ∧
    canRedo (addToHistory s u op t) = false := by
  refine ⟨rfl, rfl, ?_⟩
  simp [canRedo, addToHistory]

/-- Claim C7: `reset()` restores the current image to the original, empties
the history and sets the index to -1, from every prior state. -/
theorem reset_restores_original_and_clears_history (s : EditorState) :
    (handleReset s).currentImageUrl = (handleReset s).originalImageUrl ∧
    (handleReset s).editHistory = [] ∧
    (handleReset s).currentHistoryIndex = -1 :=
  ⟨rfl, rfl, rfl⟩

/-- Claim C10: upload validation accepts a file exactly when its MIME type is
one of jpeg/jpg/png/webp/gif and its size is at most 10 MB; otherwise it is
invalid with a non-empty human-readable message and `onDrop` does not accept
the file. -/
theorem upload_validation_accepts_exactly_type_and_size (f : JsFile) :
    ((validateImageFile f).valid = true ↔
      (f.type ∈ ["image/jpeg", "image/jpg", "image/png", "image/webp", "image/gif"] ∧
        f.size ≤ 10 * 1024 * 1024)) ∧
    ((validateImageFile f).valid = false →
      ∃ msg, (validateImageFile f).error = some msg ∧ msg ≠ "") ∧
    ((validateImageFile f).valid = false → onDrop [f] = none) ∧
    ((validateImageFile f).valid = true → onDrop [f] = some f) := by
  refine ⟨validateImageFile_valid_iff f, validateImageFile_error_msg f, ?_, ?_⟩
  · intro hv
    show (if (validateImageFile f).valid = true then some f else none) = none
    rw [if_neg (by simp [hv])]
  · intro hv
    show (if (validateImageFile f).valid = true then some f else none) = some f
    rw [if_pos hv]

/-- Witness for C10: a rejected text file, an oversized image, and an
accepted JPEG. -/
theorem upload_validation_witness :
    (validateImageFile ⟨"a.txt", "text/plain", 5, []⟩).valid = false ∧
    onDrop [⟨"a.txt", "text/plain", 5, []⟩] = none ∧
    (validateImageFile ⟨"big.jpg", "image/jpeg", 10485761, []⟩).valid = false ∧
    onDrop [⟨"big.jpg", "image/jpeg", 10485761, []⟩] = none ∧
    (validateImageFile wFile).valid = true ∧
    onDrop [wFile] = some wFile :=
  ⟨by decide,
   (upload_validation_accepts_exactly_type_and_size
     ⟨"a.txt", "text/plain", 5, []⟩).2.2.1 (by decide),
   by decide,
   (upload_validation_accepts_exactly_type_and_size
     ⟨"big.jpg", "image/jpeg", 10485761, []⟩).2.2.1 (by decide),
   by decide,
   (upload_validation_accepts_exactly_type_and_size wFile).2.2.2 (by decide)⟩

/-- Claim C8: export with `png` ignores the quality parameter (the stored
payload is downloaded without quality-dependent re-encoding), while `jpg` and
`webp` re-encode the image passing `quality / 100` to the encoder, and for
`jpg` the canvas is first flattened onto a white background. -/
theorem export_png_ignores_quality_lossy_applies_it :
    (∀ (d cn : String) (o : Option String) (iso : String) (q q' : Nat),
      handleDownload d cn o iso "png" q = handleDownload d cn o iso "png" q') ∧
    (∀ (d cn : String) (o : Option String) (iso : String) (q : Nat), d ≠ "" →
      ∃ b, handleDownload d cn o iso "png" q =
        some (.directDownload b (generateFileName cn o iso ++ "." ++ "png"))) ∧
    (∀ (d cn : String) (o : Option String) (iso fmt : String) (q : Nat), d ≠ "" →
      fmt = "jpg" ∨ fmt = "webp" →
      handleDownload d cn o iso fmt q =
        some (.reencode d (generateFileName cn o iso ++ "." ++ fmt)
          ("image/" ++ fmt) (fmt == "jpg") ((q : Rat) / 100))) := by
  refine ⟨?_, ?_, ?_⟩
  · intro d cn o iso q q'
    unfold handleDownload
    split_ifs with h1 h2 <;> first | rfl | exact absurd rfl h2
  · intro d cn o iso q hd
    unfold handleDownload
    rw [if_neg hd, if_pos rfl]
    exact ⟨_, rfl⟩
  · intro d cn o iso fmt q hd hfmt
    have hne : ¬ fmt = "png" := by
      rcases hfmt with rfl | rfl <;> decide
    unfold handleDownload
    rw [if_neg hd, if_neg hne]
    rfl

/-- Witness for C8: png quality-independence and concrete jpg/webp
re-encodings with white flattening exactly for jpg. -/
theorem export_png_ignores_quality_witness :
    handleDownload "data:image/png;base64,AQID" "" (some "photo.jpg")
        "2026-10-11T12:34:56.789Z" "png" 20 =
      handleDownload "data:image/png;base64,AQID" "" (some "photo.jpg")
        "2026-10-11T12:34:56.789Z" "png" 90 ∧
    handleDownload "data:image/png;base64,AQID" "" (some "photo.jpg")
        "2026-10-11T12:34:56.789Z" "jpg" 75 =
      some (.reencode "data:image/png;base64,AQID"
        (generateFileName "" (some "photo.jpg") "2026-10-11T12:34:56.789Z"
          ++ "." ++ "jpg")
        ("image/" ++ "jpg") ("jpg" == "jpg") (((75 : Nat) : Rat) / 100)) ∧
    handleDownload "data:image/png;base64,AQID" "" (some "photo.jpg")
        "2026-10-11T12:34:56.789Z" "webp" 60 =
      some (.reencode "data:image/png;base64,AQID"
        (generateFileName "" (some "photo.jpg") "2026-10-11T12:34:56.789Z"
          ++ "." ++ "webp")
        ("image/" ++ "webp") ("webp" == "jpg") (((60 : Nat) : Rat) / 100)) :=
  ⟨export_png_ignores_quality_lossy_applies_it.1 _ _ _ _ 20 90,
   export_png_ignores_quality_lossy_applies_it.2.2 _ _ _ _ "jpg" 75
     (by decide) (Or.inl rfl),
   export_png_ignores_quality_lossy_applies_it.2.2 _ _ _ _ "webp" 60
     (by decide) (Or.inr rfl)⟩

/-- Counterexample to claim C9 as stated: the derived file name keeps the
seconds of the timestamp (the code slices 19 ISO characters — second
precision, not minute precision), and a supplied custom name is trimmed
rather than used verbatim. -/
theorem generateFileName_claim_counterexample :
    generateFileName "" (some "photo.jpg") "2026-10-11T12:34:56.789Z" =
      "photo-edited-2026-10-11T12-34-56" ∧
    generateFileName "" (some "photo.jpg") "2026-10-11T12:34:56.789Z" ≠
      "photo-edited-2026-10-11T12-34" ∧
    generateFileName " my pic " none "2026-10-11T12:34:56.789Z" = "my pic" ∧
    generateFileName " my pic " none "2026-10-11T12:34:56.789Z" ≠ " my pic " :=
  ⟨by decide, by decide, by decide, by decide⟩

/-- Claim C9 (amended): a custom name that is non-empty after trimming is
used trimmed (with the chosen extension appended on download); otherwise the
name is `<base>-edited-<timestamp>` where the base is the original upload's
name with its extension stripped (`edited-image` when unknown) and the
timestamp is the ISO date-time truncated to second precision (its first 19
characters) with colons replaced by hyphens. -/
theorem generateFileName_amended (cn : String) (o : Option String)
    (iso : String) :
    (jsTrim cn ≠ "" → generateFileName cn o iso = jsTrim cn) ∧
    (jsTrim cn = "" →
      generateFileName cn o iso =
        (match o with
          | some n => stripExtension n
          | none => "edited-image") ++ "-edited-" ++
          String.mk ((iso.toList.take 19).map
            (fun c => if c = ':' then '-' else c))) ∧
    (∀ (d fmt : String) (q : Nat), d ≠ "" → ∃ a,
      handleDownload d cn o iso fmt q = some a ∧
      savedName a = generateFileName cn o iso ++ "." ++ fmt) := by
  refine ⟨?_, ?_, ?_⟩
  · intro h
    unfold generateFileName
    rw [if_pos h]
  · intro h
    unfold generateFileName
    rw [if_neg (by simp [h])]
  · intro d fmt q hd
    unfold handleDownload
    rw [if_neg hd]
    by_cases hp : fmt = "png"
    · subst hp
      rw [if_pos rfl]
      exact ⟨_, rfl, rfl⟩
    · rw [if_neg hp]
      exact ⟨_, rfl, rfl⟩

/-- Witness for the amended C9 at concrete names and a concrete clock. -/
theorem generateFileName_amended_witness :
    generateFileName "  poster  " (some "photo.jpg") "2026-10-11T12:34:56.789Z"
      = jsTrim "  poster  " ∧
    generateFileName "" (some "photo.jpg") "2026-10-11T12:34:56.789Z" =
      stripExtension "photo.jpg" ++ "-edited-" ++
        String.mk ((("2026-10-11T12:34:56.789Z").toList.take 19).map
          (fun c => if c = ':' then '-' else c)) ∧
    (∃ a, handleDownload "data:image/png;base64,AQID" "" (some "photo.jpg")
        "2026-10-11T12:34:56.789Z" "webp" 60 = some a ∧
      savedName a =
        generateFileName "" (some "photo.jpg") "2026-10-11T12:34:56.789Z"
          ++ "." ++ "webp") :=
  ⟨(generateFileName_amended "  poster  " (some "photo.jpg")
      "2026-10-11T12:34:56.789Z").1 (by decide),
   (generateFileName_amended "" (some "photo.jpg")
      "2026-10-11T12:34:56.789Z").2.1 (by decide),
   (generateFileName_amended "" (some "photo.jpg")
      "2026-10-11T12:34:56.789Z").2.2 _ "webp" 60 (by decide)⟩

lemma handleProcessImage_success_fst (s : EditorState) (file : JsFile)
    (op : String) (params : Option OpParams) (now st : Nat) (stx : String)
    (cr : ChatResponse)
    (hf : s.currentFile = some file) (hu : s.currentImageUrl ≠ "")
    (h2 : 200 ≤ st) (h3 : st < 300)
    (hne : extractImageFromResponse cr ≠ "") :
    (handleProcessImage s op params now (.reply st stx (.ok cr))).1 =
      { s with
        currentImageUrl := successUrl cr
        editHistory := s.editHistory.take (s.currentHistoryIndex + 1).toNat ++
          [⟨successUrl cr, op, now⟩]
        currentHistoryIndex :=
          ((s.editHistory.take (s.currentHistoryIndex + 1).toNat ++
            [(⟨successUrl cr, op, now⟩ : EditHistory)]).length : Int) - 1
        isProcessing := false
        processingStatus :=
          "✅ " ++ replaceFirstDash op ++ " completed successfully!" } := by
  rw [handleProcessImage_success s file op params now st stx cr hf hu h2 h3 hne]
  rfl

/-- Claim C2: every request the editor sends to the remote service carries
the base64 encoding of the originally uploaded file (`currentFile`, set only
at upload time), regardless of prior successful edits, undo/redo position or
the current image URL. -/
theorem remote_requests_use_original_upload (s0 : EditorState) (file : JsFile)
    (es : List Ev) (req : AIImageEditRequest)
    (hmem : req ∈ (runCollect (handleImageUpload s0 file) es).2) :
    req.image = fileToBase64 file :=
  runCollect_image file es (handleImageUpload s0 file) rfl req hmem

/-- Witness for C2: after two successful operations the second request sent
is still the base64 of the original upload, not of the first result. -/
theorem remote_requests_use_original_upload_witness :
    (runCollect (handleImageUpload default wFile) wEvents).2.length = 2 ∧
    ((runCollect (handleImageUpload default wFile) wEvents).2.getD 1
      ⟨"", .enhance, none⟩).image = fileToBase64 wFile :=
  ⟨by decide,
   remote_requests_use_original_upload default wFile wEvents _ (by decide)⟩

/-- Claim C5: for reachable session states, a single `undo()` after a
successful operation returns the current image and index to the immediately
preceding state (the previous history entry's image, or the original image
when the index was -1), and from any reachable state repeated `undo()`
reaches the original image at index -1 and then becomes a no-op. -/
theorem undo_returns_to_previous_and_reaches_original :
    (∀ (s : EditorState) (file : JsFile) (op : String) (params : Option OpParams)
      (now st : Nat) (stx : String) (cr : ChatResponse),
      Reachable s → s.currentFile = some file → s.currentImageUrl ≠ "" →
      200 ≤ st → st < 300 → extractImageFromResponse cr ≠ "" →
      (handleUndo (handleProcessImage s op params now
        (.reply st stx (.ok cr))).1).currentImageUrl = s.currentImageUrl ∧
      (handleUndo (handleProcessImage s op params now
        (.reply st stx (.ok cr))).1).currentHistoryIndex
        = s.currentHistoryIndex) ∧
    (∀ s : EditorState, Reachable s →
      (handleUndo^[(s.currentHistoryIndex + 1).toNat] s).currentHistoryIndex
        = -1 ∧
      (handleUndo^[(s.currentHistoryIndex + 1).toNat] s).currentImageUrl
        = s.originalImageUrl ∧
      handleUndo (handleUndo^[(s.currentHistoryIndex + 1).toNat] s)
        = handleUndo^[(s.currentHistoryIndex + 1).toNat] s) := by
  constructor
  · intro s file op params now st stx cr hreach hf hu h2 h3 hne
    have hinv := reachable_inv s hreach
    rw [handleProcessImage_success_fst s file op params now st stx cr hf hu h2 h3 hne]
    rcases hinv with ⟨hi, hurl⟩ | ⟨hge, hlt, hurl⟩
    · have ht0 : s.editHistory.take (s.currentHistoryIndex + 1).toNat = [] := by
        rw [hi]
        rfl
      rw [ht0]
      unfold handleUndo
      dsimp only
      rw [if_neg (by simp), if_pos (by simp)]
      exact ⟨hurl.symm, hi.symm⟩
    · have hlen2 : (s.editHistory.take (s.currentHistoryIndex + 1).toNat).length
          = s.currentHistoryIndex.toNat + 1 := by
        rw [List.length_take, inf_eq_min]
        omega
      unfold handleUndo
      dsimp only
      rw [if_pos (by rw [List.length_append, hlen2, List.length_singleton]; omega)]
      dsimp only
      constructor
      · have hidx : ((((s.editHistory.take (s.currentHistoryIndex + 1).toNat ++
              [(⟨successUrl cr, op, now⟩ : EditHistory)]).length : Int) - 1) - 1).toNat
            = s.currentHistoryIndex.toNat := by
          rw [List.length_append, hlen2, List.length_singleton]
          omega
        rw [hidx,
          List.getD_append _ _ _ _ (by rw [hlen2]; omega),
          getD_take_of_lt _ _ _ _ (by omega)]
        exact hurl.symm
      · rw [List.length_append, hlen2, List.length_singleton]
        omega
  · intro s hreach
    have hinv := reachable_inv s hreach
    obtain ⟨ha, hb, hc⟩ :=
      undo_iterate_reaches (s.currentHistoryIndex + 1).toNat s hinv rfl
    refine ⟨ha, hb, undo_noop_of_neg _ ?_⟩
    rw [ha]
    decide

/-- Claim C6: while no new operation has branched the history, `redo()` is
the exact inverse of `undo()`: from every reachable state with index ≥ 0,
`undo()` then `redo()` restores the entire state (index and current image
included), and `redo()` is a no-op at the last entry. -/
theorem redo_exact_inverse_of_undo :
    (∀ s : EditorState, Reachable s → 0 ≤ s.currentHistoryIndex →
      handleRedo (handleUndo s) = s) ∧
    (∀ s : EditorState,
      s.currentHistoryIndex = (s.editHistory.length : Int) - 1 →
      handleRedo s = s) := by
  constructor
  · intro s hreach hge
    have hinv := reachable_inv s hreach
    rcases hinv with ⟨hi, hurl⟩ | ⟨_, hlt, hurl⟩
    · exact absurd hge (by omega)
    · unfold handleUndo
      by_cases hz : s.currentHistoryIndex > 0
      · rw [if_pos hz]
        unfold handleRedo
        dsimp only
        rw [if_pos (by omega)]
        have harith : s.currentHistoryIndex - 1 + 1 = s.currentHistoryIndex := by
          omega
        apply EditorState.ext <;> dsimp only
        · rw [harith]
          exact hurl.symm
        · omega
      · have hz0 : s.currentHistoryIndex = 0 := by omega
        rw [if_neg hz, if_pos hz0]
        unfold handleRedo
        dsimp only
        rw [if_pos (by omega)]
        rw [hz0] at hurl
        apply EditorState.ext <;> dsimp only
        · simpa using hurl.symm
        · omega
  · intro s h
    unfold handleRedo
    rw [if_neg (by omega)]

/-- The session state after one successful `enhance` operation on the
uploaded fixture. -/
def wState1 : EditorState :=
  (handleProcessImage wState "enhance" none 7 (.reply 200 "OK" (.ok wChat))).1

/-- Witness for C5: on the fixture session, undo after a successful operation
restores the pre-operation image and index, and one undo from the
post-operation state reaches the original at index -1 and then no-ops. -/
theorem undo_returns_witness :
    ((handleUndo (handleProcessImage wState "enhance" none 7
        (.reply 200 "OK" (.ok wChat))).1).currentImageUrl
      = wState.currentImageUrl ∧
     (handleUndo (handleProcessImage wState "enhance" none 7
        (.reply 200 "OK" (.ok wChat))).1).currentHistoryIndex
      = wState.currentHistoryIndex) ∧
    ((handleUndo^[(wState1.currentHistoryIndex + 1).toNat] wState1).currentHistoryIndex
      = -1 ∧
     (handleUndo^[(wState1.currentHistoryIndex + 1).toNat] wState1).currentImageUrl
      = wState1.originalImageUrl ∧
     handleUndo (handleUndo^[(wState1.currentHistoryIndex + 1).toNat] wState1)
      = handleUndo^[(wState1.currentHistoryIndex + 1).toNat] wState1) :=
  ⟨undo_returns_to_previous_and_reaches_original.1 wState wFile "enhance" none
      7 200 "OK" wChat ⟨default, wFile, [], rfl⟩ rfl (by decide) (by decide)
      (by decide) (by decide),
   undo_returns_to_previous_and_reaches_original.2 wState1
      ⟨default, wFile, [.process "enhance" none 7 (.reply 200 "OK" (.ok wChat))],
        rfl⟩⟩

/-- Witness for C6: on the post-operation fixture state, redo undoes undo
exactly, and redo at the last entry is a no-op. -/
theorem redo_inverse_witness :
    handleRedo (handleUndo wState1) = wState1 ∧ handleRedo wState1 = wState1 :=
  ⟨redo_exact_inverse_of_undo.1 wState1
      ⟨default, wFile, [.process "enhance" none 7 (.reply 200 "OK" (.ok wChat))],
        rfl⟩ (by decide),
   redo_exact_inverse_of_undo.2 wState1 (by decide)⟩

end ImageEditorModel
